import Mathlib

/-!
Shallow embedding of the markitdown-rag-sample pipeline
(src/core/document_processor.py, src/db/vector_store.py, src/core/rag.py).

External services (the markitdown converter, the Chroma vector database,
the OpenAI chat model, the filesystem) are opaque collaborators of the
code; they are passed in as explicit function parameters.  A raised Python
exception is modelled as the `Except`-error branch; the typed exception
classes of the repository (`DocumentProcessingError`, `VectorStoreError`,
`RAGError`) are the constructors of `Exc`, and an arbitrary foreign
exception is `Exc.other`.  Relevance scores are carried around untouched
by the code, so they are modelled by an opaque integer-coded value.
-/

/-- Python exception values as seen at the boundaries of this code base. -/
inductive Exc where
  | vectorStoreError (msg : String)
  | ragError (msg : String)
  | docProcessingError (msg : String)
  | other (msg : String)
deriving DecidableEq, Repr

/-- Python `str(e)`: the message used when an exception is interpolated into an
f-string. -/
def Exc.str : Exc → String
  | .vectorStoreError m => m
  | .ragError m => m
  | .docProcessingError m => m
  | .other m => m

/-- Values storable in a metadata dict (`dict[str, Any]`): the code only
ever inserts strings (uuid) and ints (chunk index). -/
inductive MetaVal where
  | str (s : String)
  | int (n : Int)
deriving DecidableEq, Repr

/-- A Python `dict` keyed by strings, as an association list.  Assignment
`d[k] = v` replaces the first binding of `k` or appends a fresh one. -/
abbrev Meta := List (String × MetaVal)

/-- Assignment `d[k] = v` on an association list. -/
def assocSet {β : Type} (l : List (String × β)) (k : String) (v : β) :
    List (String × β) :=
  match l with
  | [] => [(k, v)]
  | (k', v') :: t => if k' = k then (k, v) :: t else (k', v') :: assocSet t k v

/-- Lookup `d.get(k)` on an association list (first binding wins). -/
def assocGet {β : Type} (l : List (String × β)) (k : String) : Option β :=
  match l with
  | [] => none
  | (k', v') :: t => if k' = k then some v' else assocGet t k

/-- A document as returned by the Chroma similarity search. -/
structure ChromaDoc where
  page_content : String
  metadata : Meta
deriving DecidableEq, Repr

/-- The `SearchResult` pydantic model of src/core/rag.py. -/
structure SearchResult where
  content : String
  metadata : Meta
  score : Int
deriving DecidableEq, Repr

/-- The `RAGResponse` pydantic model of src/core/rag.py. -/
structure RAGResponse where
  answer : String
  sources : List SearchResult
deriving DecidableEq, Repr

/-! ## VectorStore (src/db/vector_store.py) -/

/-- The raw Chroma call `similarity_search_with_relevance_scores` chosen by
`VectorStore.search`: Python's `if filter_metadata:` is dict truthiness, so
`None` and the empty dict both take the unfiltered branch. -/
def rawSearch (db : String → Nat → Option Meta → Except String (List (ChromaDoc × Int)))
    (query : String) (k : Nat) (filter_metadata : Option Meta) :
    Except String (List (ChromaDoc × Int)) :=
  match filter_metadata with
  | some fm => if fm = [] then db query k none else db query k (some fm)
  | none => db query k none

/-- Model of `VectorStore.search`: run the similarity search, shape each
`(doc, score)` pair into a result dict, and wrap any raised exception in
`VectorStoreError`. -/
def VectorStore.search
    (db : String → Nat → Option Meta → Except String (List (ChromaDoc × Int)))
    (query : String) (k : Nat) (filter_metadata : Option Meta) :
    Except Exc (List SearchResult) :=
  match rawSearch db query k filter_metadata with
  | .ok results =>
      .ok (results.map fun p => ⟨p.1.page_content, p.1.metadata, p.2⟩)
  | .error e => .error (.vectorStoreError ("検索に失敗しました: " ++ e))

/-- The per-chunk metadata record built inside `VectorStore.add_document`'s
loop: `metadata.copy()`, then assign `chunk_id`, then `chunk_index`. -/
def mkChunkMeta (metadata : Meta) (uuid : Nat → String) (i : Nat) : Meta :=
  assocSet (assocSet metadata "chunk_id" (.str (uuid i))) "chunk_index" (.int i)

/-- The `metadatas` list accumulated over `enumerate(chunks)`. -/
def addDocumentMetadatas (metadata : Meta) (uuid : Nat → String)
    (chunks : List String) : List Meta :=
  chunks.enum.map fun p => mkChunkMeta metadata uuid p.1

/-- The single batched `db.add_texts(texts=..., metadatas=...)` submission. -/
structure AddCall where
  texts : List String
  metadatas : List Meta
deriving DecidableEq, Repr

/-- Model of `VectorStore.add_document`: split, build per-chunk metadata, submit one
batched call; any raised exception becomes `VectorStoreError`.  The second
component records the arguments of the batched submission. -/
def VectorStore.add_document (split_text : String → List String)
    (uuid : Nat → String) (db_add : List String → List Meta → Except String Unit)
    (markdown_content : String) (metadata : Meta) : Except Exc Unit × AddCall :=
  let chunks := split_text markdown_content
  let metadatas := addDocumentMetadatas metadata uuid chunks
  (match db_add chunks metadatas with
   | .ok _ => .ok ()
   | .error e => .error (.vectorStoreError ("ドキュメントの追加に失敗しました: " ++ e)),
   ⟨chunks, metadatas⟩)

/-! ## RAG (src/core/rag.py) -/

/-- Model of `RAG.search`: delegate to the vector store, convert each result dict to
a `SearchResult`; `VectorStoreError` and any other exception are both
re-raised as `RAGError` (with distinct messages). -/
def RAG.search
    (db : String → Nat → Option Meta → Except String (List (ChromaDoc × Int)))
    (query : String) (k : Nat) (filter_metadata : Option Meta) :
    Except Exc (List SearchResult) :=
  match VectorStore.search db query k filter_metadata with
  | .ok results => .ok results
  | .error (.vectorStoreError m) =>
      .error (.ragError ("検索に失敗しました: " ++ m))
  | .error e => .error (.ragError ("予期しない検索エラー: " ++ e.str))

/-- A chat message of the two-message exchange sent to the model. -/
structure ChatMsg where
  role : String
  content : String
deriving DecidableEq, Repr

/-- The f-string system prompt of `RAG.generate`, with the combined context
interpolated. -/
def systemPrompt (combined_context : String) : String :=
  "あなたは情報提供を行うアシスタントです。\n" ++
  "以下のコンテキスト情報を使用して、ユーザーのクエリに応答してください。\n" ++
  "ユーザーのクエリがキーワードのみの場合は、そのキーワードに関連する情報を要約して提供してください。\n" ++
  "質問形式の場合は、質問に直接答えてください。\n" ++
  "コンテキスト情報に含まれていない場合は、「その情報はコンテキストに含まれていません」と答えてください。\n\n" ++
  "コンテキスト情報:\n" ++ combined_context ++ "\n"

/-- Model of `RAG.generate`: join the context with blank lines, send the system
prompt and the raw query as a two-message exchange, return the model text
verbatim; any raised exception becomes `RAGError`. -/
def RAG.generate (llm : List ChatMsg → Except String String)
    (query : String) (context : List String) : Except Exc String :=
  let combined_context := String.intercalate "\n\n" context
  match llm [⟨"system", systemPrompt combined_context⟩, ⟨"user", query⟩] with
  | .ok resp => .ok resp
  | .error e => .error (.ragError ("回答生成に失敗しました: " ++ e))

/-- Model of `RAG.query`: search; on an empty result list return the sentinel
response; otherwise extract the content strings in order, generate, and
return the answer with the original results as sources.  Every exception
escaping the body (including a `RAGError` raised by `search`/`generate`)
is wrapped once more in `RAGError`.  The second component counts chat-model
invocations (the Generator is called exactly when `generate` runs). -/
def RAG.query
    (db : String → Nat → Option Meta → Except String (List (ChromaDoc × Int)))
    (llm : List ChatMsg → Except String String)
    (query : String) (k : Nat) (filter_metadata : Option Meta) :
    Except Exc RAGResponse × Nat :=
  match RAG.search db query k filter_metadata with
  | .error e => (.error (.ragError ("RAG処理に失敗しました: " ++ e.str)), 0)
  | .ok [] => (.ok ⟨"関連する情報が見つかりませんでした。", []⟩, 0)
  | .ok (r :: rs) =>
      let search_results := r :: rs
      let context := search_results.map fun res => res.content
      match RAG.generate llm query context with
      | .ok answer => (.ok ⟨answer, search_results⟩, 1)
      | .error e => (.error (.ragError ("RAG処理に失敗しました: " ++ e.str)), 1)

/-! ## DocumentProcessor (src/core/document_processor.py) -/

/-- The opaque markitdown conversion result (`result.markdown` after the
`str(...)` cast). -/
structure MarkItDownResult where
  markdown : String
deriving DecidableEq, Repr

/-- Model of `DocumentProcessor.convert_file`: run the external converter on the
file; return `str(result.markdown)`, wrapping any raised exception in
`DocumentProcessingError`.  `convert` is the converter's outcome on the
given file path. -/
def DocumentProcessor.convert_file (convert : Except String MarkItDownResult) :
    Except Exc String :=
  match convert with
  | .ok result => .ok result.markdown
  | .error e =>
      .error (.docProcessingError ("ファイルの変換に失敗しました: " ++ e))

/-- A POSIX filesystem reduced to what `save_markdown` touches: the set of
existing directories and a path-to-content file map. -/
structure FS where
  dirs : List String
  files : List (String × String)
deriving DecidableEq, Repr

/-- Python `os.makedirs(d, exist_ok=True)`. -/
def FS.makedirs (fs : FS) (d : String) : FS :=
  if d ∈ fs.dirs then fs else ⟨d :: fs.dirs, fs.files⟩

/-- Python `open(path, 'w').write(content)`: create or overwrite. -/
def FS.writeFile (fs : FS) (path content : String) : FS :=
  ⟨fs.dirs, assocSet fs.files path content⟩

/-- Reading a file back as UTF-8 text. -/
def FS.readFile (fs : FS) (path : String) : Option String :=
  assocGet fs.files path

/-- Python `b.startswith('/')` on the character sequence. -/
def strStartsWithSep (s : String) : Bool :=
  match s.data with
  | '/' :: _ => true
  | _ => false

/-- Python `a.endswith('/')` on the character sequence. -/
def strEndsWithSep (s : String) : Bool :=
  match s.data.getLast? with
  | some '/' => true
  | _ => false

/-- Python `os.path.join(a, b)` for POSIX paths with a single-component `b`: an
absolute `b` discards `a`; otherwise a separator is inserted unless `a` is
empty or already ends with one. -/
def joinPath (a b : String) : String :=
  if strStartsWithSep b then b
  else if a = "" ∨ strEndsWithSep a then a ++ b
  else a ++ "/" ++ b

/-- Model of `DocumentProcessor.save_markdown`: ensure the output directory exists,
build `os.path.join(output_dir, filename + ".md")`, write the markdown
there (overwriting), and return the path. -/
def DocumentProcessor.save_markdown (fs : FS)
    (markdown filename output_dir : String) : FS × String :=
  let fs1 := fs.makedirs output_dir
  let output_path := joinPath output_dir (filename ++ ".md")
  (fs1.writeFile output_path markdown, output_path)

/-- Model of `DocumentProcessor.process_document` with a progress callback supplied:
`convert` is the converter outcome for the input file, `save` the outcome
of writing a given markdown text (the saved path on success).  Returns the
overall outcome and the trace of `(fraction, status)` callback invocations;
exceptions from the two steps propagate uncaught. -/
def DocumentProcessor.process_document (convert : Except String MarkItDownResult)
    (save : String → Except String String) :
    Except Exc String × List (Rat × String) :=
  let t0 : List (Rat × String) := [(0, "処理を開始しています...")]
  match DocumentProcessor.convert_file convert with
  | .error e => (.error e, t0)
  | .ok markdown =>
      let t1 := t0 ++ [(1/2, "ファイルを変換しました")]
      match save markdown with
      | .error e =>
          (.error (.docProcessingError ("マークダウンの保存に失敗しました: " ++ e)), t1)
      | .ok output_path => (.ok output_path, t1 ++ [(1, "処理が完了しました")])

/-! ## A heap model for `add_document`'s metadata dicts

Python dicts are mutable references.  To state that `add_document` leaves
the caller's dict untouched we re-run its loop over an explicit heap of
dict cells: `metadata.copy()` allocates a fresh cell, the two assignments
mutate that fresh cell only. -/

/-- A heap of metadata dicts; references are indices into `cells`. -/
structure Heap where
  cells : List Meta
deriving DecidableEq, Repr

/-- Dereference. -/
def Heap.get (h : Heap) (r : Nat) : Meta :=
  h.cells.getD r []

/-- Overwrite the cell at `r`. -/
def Heap.set (h : Heap) (r : Nat) (m : Meta) : Heap :=
  ⟨h.cells.set r m⟩

/-- Allocate a fresh cell holding `m`; returns the new heap and the
reference. -/
def Heap.alloc (h : Heap) (m : Meta) : Heap × Nat :=
  (⟨h.cells ++ [m]⟩, h.cells.length)

/-- One iteration of `add_document`'s loop at index `i`:
`chunk_metadata = metadata.copy()`, `chunk_metadata['chunk_id'] = uuid`,
`chunk_metadata['chunk_index'] = i`. -/
def addChunkMetaHeap (h : Heap) (callerRef : Nat) (uuid : Nat → String)
    (i : Nat) : Heap × Nat :=
  let p := h.alloc (h.get callerRef)
  let h1 := p.1
  let r := p.2
  let h2 := h1.set r (assocSet (h1.get r) "chunk_id" (.str (uuid i)))
  let h3 := h2.set r (assocSet (h2.get r) "chunk_index" (.int i))
  (h3, r)

/-- The whole loop, over the list of chunk indices; returns the final heap
and the references accumulated into `metadatas`. -/
def addDocumentHeapLoop (callerRef : Nat) (uuid : Nat → String) :
    Heap → List Nat → Heap × List Nat
  | h, [] => (h, [])
  | h, i :: is =>
      let p := addChunkMetaHeap h callerRef uuid i
      let q := addDocumentHeapLoop callerRef uuid p.1 is
      (q.1, p.2 :: q.2)

/-- The metadata phase of `add_document` on the heap: run the loop over
`enumerate(chunks)` and read the accumulated dicts out of the final heap. -/
def addDocumentHeap (h : Heap) (callerRef : Nat) (uuid : Nat → String)
    (chunks : List String) : Heap × List Meta :=
  let p := addDocumentHeapLoop callerRef uuid h (List.range chunks.length)
  (p.1, p.2.map p.1.get)

/-! ## Concrete collaborators used to instantiate the theorems -/

/-- The metadata records handed to the single batched store submission. -/
def submittedMetadatas (split_text : String → List String) (uuid : Nat → String)
    (db_add : List String → List Meta → Except String Unit)
    (markdown_content : String) (metadata : Meta) : List Meta :=
  (VectorStore.add_document split_text uuid db_add markdown_content metadata).2.metadatas

/-- A backing store that finds nothing. -/
def dbEmpty : String → Nat → Option Meta → Except String (List (ChromaDoc × Int)) :=
  fun _ _ _ => .ok []

/-- A backing store whose similarity search raises. -/
def dbDown : String → Nat → Option Meta → Except String (List (ChromaDoc × Int)) :=
  fun _ _ _ => .error "boom"

/-- A backing store that returns no matches exactly when `k = 0`. -/
def dbK0 : String → Nat → Option Meta → Except String (List (ChromaDoc × Int)) :=
  fun _ k _ => if k = 0 then .ok [] else .error "nonzero k"

/-- Two stored documents with scores, for the non-empty-result runs. -/
def docA : ChromaDoc := ⟨"A", [("source", .str "a.md")]⟩

/-- Second stored document. -/
def docB : ChromaDoc := ⟨"B", []⟩

/-- A backing store returning the two documents above. -/
def dbTwo : String → Nat → Option Meta → Except String (List (ChromaDoc × Int)) :=
  fun _ _ _ => .ok [(docA, 9), (docB, 3)]

/-- A chat model that always answers `"ANS"`. -/
def llmAns : List ChatMsg → Except String String := fun _ => .ok "ANS"

/-- A text splitter producing two chunks. -/
def splitTwo : String → List String := fun s => [s, s ++ "!"]

/-- A uuid supply that is injective: `i` is encoded in unary. -/
def uuidRep : Nat → String := fun n => String.mk (List.replicate n 'a')

/-- A batched store submission that succeeds. -/
def dbAddOk : List String → List Meta → Except String Unit := fun _ _ => .ok ()

/-- The empty filesystem. -/
def fs0 : FS := ⟨[], []⟩

/-- A converter run that succeeds. -/
def convOk : Except String MarkItDownResult := .ok ⟨"# MD"⟩

/-- A markdown write that succeeds. -/
def saveOk : String → Except String String := fun _ => .ok "out/doc.md"

/-- A one-cell heap: the caller's metadata dict. -/
def heap1 : Heap := ⟨[[("source", .str "s.md")]]⟩

/-! ## Association-list (dict) lemmas -/

theorem assocGet_assocSet_self {β : Type} (l : List (String × β)) (k : String)
    (v : β) : assocGet (assocSet l k v) k = some v := by
  induction l with
  | nil => simp [assocSet, assocGet]
  | cons hd t ih =>
      obtain ⟨k', v'⟩ := hd
      by_cases hk : k' = k
      · simp [assocSet, hk, assocGet]
      · simp [assocSet, hk, assocGet, ih]

theorem assocGet_assocSet_ne {β : Type} (l : List (String × β)) (k k' : String)
    (v : β) (h : k' ≠ k) : assocGet (assocSet l k v) k' = assocGet l k' := by
  induction l with
  | nil => simp [assocSet, assocGet, Ne.symm h]
  | cons hd t ih =>
      obtain ⟨a, b⟩ := hd
      by_cases ha : a = k
      · subst ha
        simp [assocSet, assocGet, Ne.symm h]
      · by_cases ha' : a = k'
        · subst ha'
          simp [assocSet, assocGet, h]
        · simp [assocSet, ha, assocGet, ha', ih]

theorem assocGet_mkChunkMeta_chunk_id (m : Meta) (uuid : Nat → String)
    (i : Nat) : assocGet (mkChunkMeta m uuid i) "chunk_id" = some (.str (uuid i)) := by
  unfold mkChunkMeta
  rw [assocGet_assocSet_ne _ _ _ _ (by decide)]
  exact assocGet_assocSet_self _ _ _

theorem assocGet_mkChunkMeta_chunk_index (m : Meta) (uuid : Nat → String)
    (i : Nat) : assocGet (mkChunkMeta m uuid i) "chunk_index" = some (.int i) :=
  assocGet_assocSet_self _ _ _

theorem assocGet_mkChunkMeta_frame (m : Meta) (uuid : Nat → String) (i : Nat)
    (k : String) (h1 : k ≠ "chunk_id") (h2 : k ≠ "chunk_index") :
    assocGet (mkChunkMeta m uuid i) k = assocGet m k := by
  unfold mkChunkMeta
  rw [assocGet_assocSet_ne _ _ _ _ h2, assocGet_assocSet_ne _ _ _ _ h1]

theorem enum_map_fst_eq {α β : Type} (l : List α) (f : Nat → β) :
    (l.enum.map fun p => f p.1) = (List.range l.length).map f := by
  rw [List.enum_eq_zip_range,
    show (fun p : Nat × α => f p.1) = f ∘ Prod.fst from rfl, ← List.map_map,
    List.map_fst_zip _ _ (by simp)]

theorem addDocumentMetadatas_eq (m : Meta) (uuid : Nat → String)
    (chunks : List String) :
    addDocumentMetadatas m uuid chunks
      = (List.range chunks.length).map (mkChunkMeta m uuid) :=
  enum_map_fst_eq chunks (mkChunkMeta m uuid)

/-! ## List.getD lemmas for the heap model -/

theorem getD_append_lt {α : Type} (l l' : List α) (d : α) :
    ∀ j, j < l.length → (l ++ l').getD j d = l.getD j d := by
  induction l with
  | nil => intro j hj; exact absurd hj (by simp)
  | cons a t ih =>
      intro j hj
      cases j with
      | zero => rfl
      | succ n => simpa using ih n (by simpa using hj)

theorem getD_append_len {α : Type} (l : List α) (a d : α) :
    (l ++ [a]).getD l.length d = a := by
  induction l with
  | nil => rfl
  | cons b t ih =>
      simp only [List.cons_append, List.length_cons, List.getD_cons_succ]
      exact ih

theorem getD_set_ne {α : Type} (a d : α) :
    ∀ (l : List α) (i j : Nat), i ≠ j → (l.set i a).getD j d = l.getD j d := by
  intro l
  induction l with
  | nil => intro i j _; simp [List.set]
  | cons b t ih =>
      intro i j hij
      cases i with
      | zero =>
          cases j with
          | zero => exact absurd rfl hij
          | succ n => rfl
      | succ m =>
          cases j with
          | zero => rfl
          | succ n => simpa using ih m n (by omega)

theorem getD_set_self {α : Type} (a d : α) :
    ∀ (l : List α) (i : Nat), i < l.length → (l.set i a).getD i d = a := by
  intro l
  induction l with
  | nil => intro i hi; exact absurd hi (by simp)
  | cons b t ih =>
      intro i hi
      cases i with
      | zero => rfl
      | succ m => simpa using ih m (by simpa using hi)

/-! ## Heap-loop invariant for `add_document` -/

theorem addChunkMetaHeap_spec (h : Heap) (r : Nat) (uuid : Nat → String)
    (i : Nat) :
    (addChunkMetaHeap h r uuid i).2 = h.cells.length ∧
    (addChunkMetaHeap h r uuid i).1.cells.length = h.cells.length + 1 ∧
    (∀ j, j < h.cells.length →
      (addChunkMetaHeap h r uuid i).1.cells.getD j [] = h.cells.getD j []) ∧
    (addChunkMetaHeap h r uuid i).1.get h.cells.length
      = mkChunkMeta (h.get r) uuid i := by
  refine ⟨rfl, ?_, ?_, ?_⟩
  · simp [addChunkMetaHeap, Heap.alloc, Heap.set]
  · intro j hj
    show ((((h.cells ++ [h.get r]).set h.cells.length _).set h.cells.length _).getD j [])
        = h.cells.getD j []
    rw [getD_set_ne _ _ _ _ _ (by omega), getD_set_ne _ _ _ _ _ (by omega),
      getD_append_lt _ _ _ j hj]
  · show ((((h.cells ++ [h.get r]).set h.cells.length _).set h.cells.length _).getD
        h.cells.length []) = mkChunkMeta (h.get r) uuid i
    rw [getD_set_self _ _ _ _ (by simp)]
    show assocSet (((h.cells ++ [h.get r]).set h.cells.length _).getD h.cells.length [])
        "chunk_index" (.int i) = mkChunkMeta (h.get r) uuid i
    rw [getD_set_self _ _ _ _ (by simp)]
    show assocSet (assocSet ((h.cells ++ [h.get r]).getD h.cells.length [])
        "chunk_id" (.str (uuid i))) "chunk_index" (.int i) = mkChunkMeta (h.get r) uuid i
    rw [getD_append_len]
    rfl

theorem addDocumentHeapLoop_spec (uuid : Nat → String) (r : Nat) :
    ∀ (is : List Nat) (h : Heap), r < h.cells.length →
      h.cells.length ≤ (addDocumentHeapLoop r uuid h is).1.cells.length ∧
      (∀ j, j < h.cells.length →
        (addDocumentHeapLoop r uuid h is).1.cells.getD j []
          = h.cells.getD j []) ∧
      (addDocumentHeapLoop r uuid h is).2.map (addDocumentHeapLoop r uuid h is).1.get
        = is.map (mkChunkMeta (h.get r) uuid) := by
  intro is
  induction is with
  | nil =>
      intro h hr
      exact ⟨Nat.le_refl _, fun j _ => rfl, rfl⟩
  | cons i is ih =>
      intro h hr
      obtain ⟨href, hlen, hpres, hcell⟩ := addChunkMetaHeap_spec h r uuid i
      obtain ⟨len3, pres3, map3⟩ :=
        ih (addChunkMetaHeap h r uuid i).1 (by omega)
      have hloop : addDocumentHeapLoop r uuid h (i :: is)
          = ((addDocumentHeapLoop r uuid (addChunkMetaHeap h r uuid i).1 is).1,
             (addChunkMetaHeap h r uuid i).2
               :: (addDocumentHeapLoop r uuid (addChunkMetaHeap h r uuid i).1 is).2) := rfl
      rw [hloop]
      dsimp only
      refine ⟨by omega, ?_, ?_⟩
      · intro j hj
        rw [pres3 j (by omega), hpres j hj]
      · have hgetr : (addChunkMetaHeap h r uuid i).1.get r = h.get r := hpres r hr
        simp only [List.map_cons]
        rw [map3, hgetr, href]
        have hheadcell :
            (addDocumentHeapLoop r uuid (addChunkMetaHeap h r uuid i).1 is).1.get
              h.cells.length
            = mkChunkMeta (h.get r) uuid i := by
          have := pres3 h.cells.length (by omega)
          unfold Heap.get
          rw [this]
          exact hcell
        rw [hheadcell]

/-! ## Claims -/

/-- C1: for every query, `k` and filter, if the index search returns an
empty result list, `RAG.query` returns the fixed sentinel answer
`関連する情報が見つかりませんでした。` with an empty sources list, and the
chat model (Generator) is invoked zero times. -/
theorem query_empty_search_sentinel
    (db : String → Nat → Option Meta → Except String (List (ChromaDoc × Int)))
    (llm : List ChatMsg → Except String String)
    (q : String) (k : Nat) (f : Option Meta)
    (h : VectorStore.search db q k f = .ok []) :
    RAG.query db llm q k f
      = (.ok ⟨"関連する情報が見つかりませんでした。", []⟩, 0) := by
  have hs : RAG.search db q k f = .ok [] := by
    unfold RAG.search
    rw [h]
  unfold RAG.query
  rw [hs]

/-- C1 witness: a store with no matches, run concretely. -/
theorem query_empty_search_sentinel_witness :
    RAG.query dbEmpty llmAns "q" 4 none
      = (.ok ⟨"関連する情報が見つかりませんでした。", []⟩, 0) :=
  query_empty_search_sentinel dbEmpty llmAns "q" 4 none rfl

/-- C2: whatever the backing store and chat model do, an error escaping
`RAG.query` is always a `RAGError`, never the raw underlying exception. -/
theorem query_error_always_ragError
    (db : String → Nat → Option Meta → Except String (List (ChromaDoc × Int)))
    (llm : List ChatMsg → Except String String)
    (q : String) (k : Nat) (f : Option Meta) (e : Exc)
    (h : (RAG.query db llm q k f).1 = .error e) :
    ∃ m, e = Exc.ragError m := by
  unfold RAG.query at h
  cases hs : RAG.search db q k f with
  | error e' =>
      rw [hs] at h
      exact ⟨_, (Except.error.inj h).symm⟩
  | ok results =>
      cases results with
      | nil =>
          rw [hs] at h
          exact absurd h (by simp)
      | cons r rs =>
          rw [hs] at h
          dsimp only at h
          cases hg : RAG.generate llm q ((r :: rs).map fun res => res.content) with
          | ok a =>
              rw [hg] at h
              exact absurd h (by simp)
          | error e2 =>
              rw [hg] at h
              exact ⟨_, (Except.error.inj h).symm⟩

/-- C2 witness: a store whose search raises, run concretely. -/
theorem query_error_always_ragError_witness :
    ∃ m, Exc.ragError
        "RAG処理に失敗しました: 検索に失敗しました: 検索に失敗しました: boom"
      = Exc.ragError m :=
  query_error_always_ragError dbDown llmAns "q" 4 none _ rfl

/-- C6: when the backing store yields zero matches, `VectorStore.search`
returns an empty list and raises nothing; when the backing store raises,
the failure surfaces as a `VectorStoreError` carrying the cause. -/
theorem search_empty_ok_and_wrapped
    (db : String → Nat → Option Meta → Except String (List (ChromaDoc × Int)))
    (q : String) (k : Nat) (f : Option Meta) :
    (rawSearch db q k f = .ok [] → VectorStore.search db q k f = .ok []) ∧
    (∀ e, rawSearch db q k f = .error e →
      VectorStore.search db q k f
        = .error (.vectorStoreError ("検索に失敗しました: " ++ e))) := by
  constructor
  · intro h
    unfold VectorStore.search
    rw [h]
    rfl
  · intro e h
    unfold VectorStore.search
    rw [h]

/-- C6 witness: the `search("", k=0)` boundary, against a store that has no
matches at `k = 0`. -/
theorem search_empty_ok_and_wrapped_witness :
    VectorStore.search dbK0 "" 0 none = .ok [] :=
  (search_empty_ok_and_wrapped dbK0 "" 0 none).1 rfl

/-- C7: on a non-empty search-result list, the context handed to `generate`
is exactly the result contents in order, and the returned sources are the
original `SearchResult` list unmodified (same elements, order, scores). -/
theorem query_context_and_sources_preserved
    (db : String → Nat → Option Meta → Except String (List (ChromaDoc × Int)))
    (llm : List ChatMsg → Except String String)
    (q : String) (k : Nat) (f : Option Meta)
    (r : SearchResult) (rs : List SearchResult) (a : String)
    (hs : RAG.search db q k f = .ok (r :: rs))
    (hg : RAG.generate llm q ((r :: rs).map fun res => res.content) = .ok a) :
    RAG.query db llm q k f = (.ok ⟨a, r :: rs⟩, 1) := by
  unfold RAG.query
  rw [hs]
  dsimp only
  rw [hg]

/-- C7 witness: two stored documents, run concretely. -/
theorem query_context_and_sources_preserved_witness :
    RAG.query dbTwo llmAns "q" 2 none
      = (.ok ⟨"ANS", [⟨"A", [("source", .str "a.md")], 9⟩, ⟨"B", [], 3⟩]⟩, 1) :=
  query_context_and_sources_preserved dbTwo llmAns "q" 2 none _ _ _ rfl rfl

/-- C8: `generate` joins the context with a blank line in the order given,
embeds it in the fixed system instruction, sends the raw query as the user
message of a two-message exchange, and returns the model answer verbatim. -/
theorem generate_prompt_contract (llm : List ChatMsg → Except String String)
    (q : String) (context : List String) (a : String)
    (h : llm [⟨"system", systemPrompt (String.intercalate "\n\n" context)⟩,
              ⟨"user", q⟩] = .ok a) :
    RAG.generate llm q context = .ok a := by
  unfold RAG.generate
  dsimp only
  rw [h]

/-- C8 witness: a two-passage context, run concretely. -/
theorem generate_prompt_contract_witness :
    RAG.generate llmAns "q" ["x", "y"] = .ok "ANS" :=
  generate_prompt_contract llmAns "q" ["x", "y"] "ANS" rfl

/-- C3: a call to `add_document` whose content splits into `N` chunks
submits exactly `N` metadata records to the store; the `i`-th record is the
caller's metadata extended with a `chunk_id` and a `chunk_index` (all other
keys unchanged); the `chunk_id` values are pairwise distinct (the uuids
drawn are fresh, i.e. injective over the indices used); and the
`chunk_index` values are `0..N-1` in order. -/
theorem add_document_metadata_records
    (split_text : String → List String) (uuid : Nat → String)
    (db_add : List String → List Meta → Except String Unit)
    (content : String) (metadata : Meta)
    (huuid : ∀ i, i < (split_text content).length →
      ∀ j, j < (split_text content).length → uuid i = uuid j → i = j) :
    (submittedMetadatas split_text uuid db_add content metadata).length
        = (split_text content).length ∧
    (∀ i (hi : i < (submittedMetadatas split_text uuid db_add content metadata).length),
      assocGet ((submittedMetadatas split_text uuid db_add content metadata)[i])
          "chunk_id" = some (.str (uuid i)) ∧
      assocGet ((submittedMetadatas split_text uuid db_add content metadata)[i])
          "chunk_index" = some (.int i) ∧
      (∀ key, key ≠ "chunk_id" → key ≠ "chunk_index" →
        assocGet ((submittedMetadatas split_text uuid db_add content metadata)[i]) key
          = assocGet metadata key)) ∧
    List.Pairwise (fun m1 m2 => assocGet m1 "chunk_id" ≠ assocGet m2 "chunk_id")
      (submittedMetadatas split_text uuid db_add content metadata) ∧
    ((submittedMetadatas split_text uuid db_add content metadata).map
        fun m => assocGet m "chunk_index")
      = (List.range (split_text content).length).map fun i => some (.int i) := by
  have hsub : submittedMetadatas split_text uuid db_add content metadata
      = (List.range (split_text content).length).map (mkChunkMeta metadata uuid) := by
    show addDocumentMetadatas metadata uuid (split_text content) = _
    exact addDocumentMetadatas_eq _ _ _
  rw [hsub]
  refine ⟨by simp, ?_, ?_, ?_⟩
  · intro i hi
    have hi' : i < (split_text content).length := by simpa using hi
    rw [List.getElem_map, List.getElem_range]
    exact ⟨assocGet_mkChunkMeta_chunk_id _ _ _,
      assocGet_mkChunkMeta_chunk_index _ _ _,
      fun key h1 h2 => assocGet_mkChunkMeta_frame _ _ _ _ h1 h2⟩
  · rw [List.pairwise_map, List.pairwise_iff_getElem]
    intro i j hi hj hij
    rw [List.getElem_range, List.getElem_range]
    rw [assocGet_mkChunkMeta_chunk_id, assocGet_mkChunkMeta_chunk_id]
    intro heq
    have hij' : uuid i = uuid j := MetaVal.str.inj (Option.some.inj heq)
    have : i = j :=
      huuid i (by simpa using hi) j (by simpa using hj) hij'
    omega
  · rw [List.map_map]
    exact List.map_congr_left fun i _ => assocGet_mkChunkMeta_chunk_index _ _ _

/-- C3 witness: a two-chunk split with an injective uuid supply. -/
theorem add_document_metadata_records_witness :
    (submittedMetadatas splitTwo uuidRep dbAddOk "c" [("source", .str "d.md")]).length
      = (splitTwo "c").length :=
  (add_document_metadata_records splitTwo uuidRep dbAddOk "c"
    [("source", .str "d.md")] (by decide)).1

/-- C10: re-running `add_document`'s metadata loop over an explicit heap of
dict cells, the caller's dict cell is untouched (each record is built in a
freshly allocated copy), and the records produced agree with the pure
`addDocumentMetadatas`.  The only later step, the batched store submission,
does not write to any dict, so this holds on success and failure alike. -/
theorem add_document_caller_metadata_unchanged (h : Heap) (r : Nat)
    (uuid : Nat → String) (chunks : List String) (hr : r < h.cells.length) :
    (addDocumentHeap h r uuid chunks).1.get r = h.get r ∧
    (addDocumentHeap h r uuid chunks).2
      = addDocumentMetadatas (h.get r) uuid chunks := by
  obtain ⟨_, pres, maps⟩ :=
    addDocumentHeapLoop_spec uuid r (List.range chunks.length) h hr
  constructor
  · show (addDocumentHeapLoop r uuid h (List.range chunks.length)).1.get r = h.get r
    unfold Heap.get
    exact pres r hr
  · show (addDocumentHeapLoop r uuid h (List.range chunks.length)).2.map
        (addDocumentHeapLoop r uuid h (List.range chunks.length)).1.get
      = addDocumentMetadatas (h.get r) uuid chunks
    rw [maps]
    exact (addDocumentMetadatas_eq _ _ _).symm

/-- C10 witness: a one-cell heap holding the caller's dict, two chunks. -/
theorem add_document_caller_metadata_unchanged_witness :
    (addDocumentHeap heap1 0 uuidRep ["a", "b"]).1.get 0 = heap1.get 0 :=
  (add_document_caller_metadata_unchanged heap1 0 uuidRep ["a", "b"]
    (by decide)).1

/-- C4: the progress callback trace of `process_document` is exactly
`0.0, 0.5, 1.0` (three calls, strictly increasing, with the bookends) on
the success path; it is always strictly increasing; `0.5` is only emitted
after a successful conversion and `1.0` only after a successful write, so a
failing run never signals past its failure point. -/
theorem process_document_progress_trace
    (convert : Except String MarkItDownResult)
    (save : String → Except String String) :
    ((DocumentProcessor.process_document convert save).1.isOk →
      (DocumentProcessor.process_document convert save).2.map Prod.fst
        = [0, 1/2, 1]) ∧
    List.Chain' (· < ·)
      ((DocumentProcessor.process_document convert save).2.map Prod.fst) ∧
    ((1/2 : Rat) ∈ (DocumentProcessor.process_document convert save).2.map Prod.fst →
      convert.isOk) ∧
    ((1 : Rat) ∈ (DocumentProcessor.process_document convert save).2.map Prod.fst →
      ∃ result, convert = .ok result ∧ (save result.markdown).isOk) := by
  rcases convert with e | result
  · refine ⟨?_, ?_, ?_, ?_⟩ <;>
      simp [DocumentProcessor.process_document, DocumentProcessor.convert_file,
        Except.isOk, Except.toBool]
  · rcases hsave : save result.markdown with e2 | path
    all_goals refine ⟨?_, ?_, ?_, ?_⟩
    all_goals simp [DocumentProcessor.process_document,
      DocumentProcessor.convert_file, hsave, Except.isOk, Except.toBool]
    all_goals try norm_num

/-- C4 witness: a successful run, concretely. -/
theorem process_document_progress_trace_witness :
    (DocumentProcessor.process_document convOk saveOk).2.map Prod.fst
      = [0, 1/2, 1] :=
  (process_document_progress_trace convOk saveOk).1 rfl

/-- C5 counterexample: `convert_file` has no emptiness check — when the
external converter succeeds with empty markdown (e.g. an empty text file),
it returns the empty string without raising, so "either returns non-empty
text or raises" is false as stated. -/
theorem convert_file_claim_false :
    DocumentProcessor.convert_file (Except.ok ⟨""⟩) = Except.ok "" ∧
    ¬ (∀ (convert : Except String MarkItDownResult) (s : String),
        DocumentProcessor.convert_file convert = Except.ok s → s ≠ "") :=
  ⟨rfl, fun hclaim => hclaim (Except.ok ⟨""⟩) "" rfl rfl⟩

/-- C5 amended: `convert_file` either returns exactly the converter's text
(possibly empty) or raises `DocumentProcessingError`; it never returns a
`None`-like value, never returns silently on a conversion failure, and on
failure no partial output is returned. -/
theorem convert_file_success_or_typed_error
    (convert : Except String MarkItDownResult) :
    (∃ result, convert = Except.ok result ∧
      DocumentProcessor.convert_file convert = Except.ok result.markdown) ∨
    (∃ m, DocumentProcessor.convert_file convert
        = Except.error (Exc.docProcessingError m)) := by
  rcases convert with e | result
  · exact Or.inr ⟨_, rfl⟩
  · exact Or.inl ⟨result, rfl, rfl⟩

/-- C9 counterexample: the output path is `os.path.join(output_dir,
filename + ".md")`, not the literal template — a filename beginning with
the separator makes the join discard `output_dir` entirely. -/
theorem save_markdown_path_claim_false :
    (DocumentProcessor.save_markdown fs0 "m" "/e" "out").2 = "/e.md" ∧
    (DocumentProcessor.save_markdown fs0 "m" "/e" "out").2
      ≠ "out" ++ "/" ++ "/e" ++ ".md" := by
  constructor
  · rfl
  · decide

/-- C9 amended: for a filename that does not start with the separator and a
non-empty output directory not ending in it, `save_markdown` returns the
path `{output_dir}/{filename}.md`, the directory is recorded as created,
and reading the written file back yields exactly the markdown written
(overwriting any previous content at that path). -/
theorem save_markdown_write_roundtrip (fs : FS)
    (markdown filename output_dir : String)
    (h1 : strStartsWithSep (filename ++ ".md") = false)
    (h2 : output_dir ≠ "")
    (h3 : strEndsWithSep output_dir = false) :
    (DocumentProcessor.save_markdown fs markdown filename output_dir).2
      = output_dir ++ "/" ++ filename ++ ".md" ∧
    (DocumentProcessor.save_markdown fs markdown filename output_dir).1.readFile
        ((DocumentProcessor.save_markdown fs markdown filename output_dir).2)
      = some markdown ∧
    output_dir ∈ (DocumentProcessor.save_markdown fs markdown filename output_dir).1.dirs := by
  have hpath : joinPath output_dir (filename ++ ".md")
      = output_dir ++ "/" ++ filename ++ ".md" := by
    unfold joinPath
    rw [h1]
    simp only [Bool.false_eq_true, if_false]
    rw [if_neg]
    · simp [String.append_assoc]
    · rintro (hdir | hdir)
      · exact h2 hdir
      · rw [h3] at hdir
        exact Bool.false_ne_true hdir
  refine ⟨hpath, ?_, ?_⟩
  · show FS.readFile ⟨(fs.makedirs output_dir).dirs,
        assocSet (fs.makedirs output_dir).files
          (joinPath output_dir (filename ++ ".md")) markdown⟩
        (joinPath output_dir (filename ++ ".md")) = some markdown
    unfold FS.readFile
    exact assocGet_assocSet_self _ _ _
  · show output_dir ∈ (fs.makedirs output_dir).dirs
    unfold FS.makedirs
    by_cases hmem : output_dir ∈ fs.dirs
    · rw [if_pos hmem]
      exact hmem
    · rw [if_neg hmem]
      exact List.mem_cons_self _ _

/-- C9 witness: an ordinary filename and output directory, concretely. -/
theorem save_markdown_write_roundtrip_witness :
    (DocumentProcessor.save_markdown fs0 "# T" "doc" "out").1.readFile
        ((DocumentProcessor.save_markdown fs0 "# T" "doc" "out").2)
      = some "# T" :=
  (save_markdown_write_roundtrip fs0 "# T" "doc" "out"
    (by decide) (by decide) (by decide)).2.1
